import Mathlib

/-!
# Verification of the mythril device-dispatch core

A shallow embedding of `src/mythril_core/src/device/mod.rs` and
`src/mythril_core/src/device/pci.rs`.  Machine integers (`u8`, `u16`, `u32`)
are embedded as `Nat`; wrap-around is made explicit with `% 2 ^ w`, `&&&`,
`|||`, `>>>` and `<<<` where the source relies on a fixed width.  Rust
`Result<T>` values become `Except Error T`; methods taking `&mut self`
return the updated receiver explicitly.  Error message strings are
abstracted to the structured data interpolated into them.
-/

namespace Mythril

/-- The error type (`mythril_core::error::Error`), restricted to the variants
the device core produces.  `InvalidDevice` carries the format arguments of the
registration-conflict message: which address space, the offered range and the
conflicting stored range. -/
inductive Error where
  | InvalidDevice (isPort : Bool) (offeredLo offeredHi conflictLo conflictHi : Nat)
  | InvalidValue
  | NotImplemented
deriving DecidableEq, Repr

/-- Embeds `u32::to_be_bytes`: the four big-endian bytes of a 32-bit value. -/
def u32.toBeBytes (v : Nat) : List Nat :=
  [v / 2 ^ 24 % 256, v / 2 ^ 16 % 256, v / 2 ^ 8 % 256, v % 256]

/-- Embeds `u32::from_be_bytes`: assemble a 32-bit value from four big-endian bytes. -/
def u32.fromBeBytes (b0 b1 b2 b3 : Nat) : Nat :=
  b0 * 2 ^ 24 + b1 * 2 ^ 16 + b2 * 2 ^ 8 + b3

/-- Big-endian interpretation of a byte sequence, most significant byte
first; for four bytes this agrees with `u32::from_be_bytes`. -/
def beInterp (bs : List Nat) : Nat :=
  bs.foldl (fun acc b => acc * 256 + b) 0

/-- Embeds `PortReadRequest` (`device/mod.rs`): a mutable 1-, 2- or 4-byte reply
buffer.  The borrowed buffer is embedded by value; mutation returns a new
request holding the written bytes. -/
inductive PortReadRequest where
  | OneByte (b0 : Nat)
  | TwoBytes (b0 b1 : Nat)
  | FourBytes (b0 b1 b2 b3 : Nat)
deriving DecidableEq, Repr

/-- Embeds `PortReadRequest::as_slice`. -/
def PortReadRequest.as_slice : PortReadRequest → List Nat
  | .OneByte b0 => [b0]
  | .TwoBytes b0 b1 => [b0, b1]
  | .FourBytes b0 b1 b2 b3 => [b0, b1, b2, b3]

/-- Embeds `PortReadRequest::len`. -/
def PortReadRequest.len (r : PortReadRequest) : Nat :=
  r.as_slice.length

/-- Embeds `PortReadRequest::copy_from_u32`: `arr = val.to_be_bytes()` and the
buffer receives `arr[4 - len..]`, i.e. the last `len` big-endian bytes. -/
def PortReadRequest.copy_from_u32 (r : PortReadRequest) (val : Nat) : PortReadRequest :=
  let arr := u32.toBeBytes val
  match r with
  | .OneByte _ => .OneByte (arr.getD 3 0)
  | .TwoBytes _ _ => .TwoBytes (arr.getD 2 0) (arr.getD 3 0)
  | .FourBytes _ _ _ _ =>
      .FourBytes (arr.getD 0 0) (arr.getD 1 0) (arr.getD 2 0) (arr.getD 3 0)

/-- Embeds `PortWriteRequest` (`device/mod.rs`): an immutable 1-, 2- or 4-byte
payload carrying the value the guest wrote. -/
inductive PortWriteRequest where
  | OneByte (b0 : Nat)
  | TwoBytes (b0 b1 : Nat)
  | FourBytes (b0 b1 b2 b3 : Nat)
deriving DecidableEq, Repr

/-- Embeds `PortWriteRequest::as_slice`. -/
def PortWriteRequest.as_slice : PortWriteRequest → List Nat
  | .OneByte b0 => [b0]
  | .TwoBytes b0 b1 => [b0, b1]
  | .FourBytes b0 b1 b2 b3 => [b0, b1, b2, b3]

/-- Embeds `PortWriteRequest::as_u32`: zero-pad to four bytes on the high side and
interpret big-endian. -/
def PortWriteRequest.as_u32 : PortWriteRequest → Nat
  | .OneByte b0 => u32.fromBeBytes 0 0 0 b0
  | .TwoBytes b0 b1 => u32.fromBeBytes 0 0 b0 b1
  | .FourBytes b0 b1 b2 b3 => u32.fromBeBytes b0 b1 b2 b3

/-- Embeds `TryFrom<&[u8]> for PortWriteRequest`: matches on the slice length and
accepts exactly 1, 2 and 4 bytes. -/
def PortWriteRequest.try_from (buff : List Nat) : Except Error PortWriteRequest :=
  match buff with
  | [b0] => .ok (.OneByte b0)
  | [b0, b1] => .ok (.TwoBytes b0 b1)
  | [b0, b1, b2, b3] => .ok (.FourBytes b0 b1 b2 b3)
  | _ => .error .InvalidValue

/-- Embeds `TryInto<u32> for PortWriteRequest`: succeeds only on the four-byte
variant, interpreting the bytes big-endian. -/
def PortWriteRequest.tryIntoU32 : PortWriteRequest → Except Error Nat
  | .FourBytes b0 b1 b2 b3 => .ok (u32.fromBeBytes b0 b1 b2 b3)
  | _ => .error .InvalidValue

/-!
## Range keys and the device dispatcher (`device/mod.rs`)
-/

/-- An inclusive `[lo, hi]` range (`core::ops::RangeInclusive`).  `Port`
ranges live over `u16` and memory ranges over `GuestPhysAddr` (`u64`); both
are embedded over `Nat`, so one range type serves `PortIoRegion` and
`MemIoRegion`. -/
structure IncRange where
  lo : Nat
  hi : Nat
deriving DecidableEq, Repr

/-- The `Ord` impl shared verbatim by `PortIoRegion` and `MemIoRegion`:
`Less` if `self.end < other.start`, `Greater` if `other.end < self.start`,
`Equal` otherwise — so two ranges compare equal exactly when they overlap. -/
def rangeCmp (a b : IncRange) : Ordering :=
  if a.hi < b.lo then .lt
  else if b.hi < a.lo then .gt
  else .eq

/-- Embeds `DeviceRegion`: the address-space claim a device declares. -/
inductive DeviceRegion where
  | PortIo (r : IncRange)
  | MemIo (r : IncRange)
deriving DecidableEq, Repr

/-- An `EmulatedDevice` as the dispatcher sees it: its declared regions,
plus a numeric identity standing for the trait object behind the shared
`Rc` handle. -/
structure EmulatedDevice where
  id : Nat
  services : List DeviceRegion
deriving DecidableEq, Repr

/-- Embeds `BTreeMap::get` / `get_key_value` with the overlap order: the stored
entry whose key compares `Equal` to (overlaps) the probe key, if any.  The
registration algorithm keeps stored keys pairwise non-overlapping, under
which a probe finds an overlapping key exactly when one exists. -/
def mapGet (m : List (IncRange × Nat)) (key : IncRange) : Option (IncRange × Nat) :=
  m.find? (fun kv => rangeCmp key kv.1 = .eq)

/-- Embeds `DeviceMap` (`device/mod.rs`): the two range-keyed maps, embedded as
association lists in insertion order.  Values are device identities. -/
structure DeviceMap where
  portio_map : List (IncRange × Nat)
  memio_map : List (IncRange × Nat)
deriving DecidableEq, Repr

/-- Embeds `DeviceMap::default()`. -/
def DeviceMap.empty : DeviceMap := ⟨[], []⟩

/-- The loop body of `DeviceMap::register_device` over `dev.services()`:
for each region, fail with `InvalidDevice` (naming the offered key and the
conflicting stored key) if the map already contains an overlapping key,
else insert and continue.  The map state reached so far is returned in both
outcomes, mirroring mutation of `&mut self`. -/
def registerRegions (m : DeviceMap) (regions : List DeviceRegion) (devId : Nat) :
    DeviceMap × Except Error Unit :=
  match regions with
  | [] => (m, .ok ())
  | .PortIo val :: rest =>
      match mapGet m.portio_map val with
      | some conflict =>
          (m, .error (.InvalidDevice true val.lo val.hi conflict.1.lo conflict.1.hi))
      | none =>
          registerRegions { m with portio_map := m.portio_map ++ [(val, devId)] } rest devId
  | .MemIo val :: rest =>
      match mapGet m.memio_map val with
      | some conflict =>
          (m, .error (.InvalidDevice false val.lo val.hi conflict.1.lo conflict.1.hi))
      | none =>
          registerRegions { m with memio_map := m.memio_map ++ [(val, devId)] } rest devId

/-- Embeds `DeviceMap::register_device`. -/
def DeviceMap.register_device (m : DeviceMap) (dev : EmulatedDevice) :
    DeviceMap × Except Error Unit :=
  registerRegions m dev.services dev.id

/-- Embeds `DeviceInteraction for u16::find_device` as used by
`DeviceMap::device_for`: probe `portio_map` with the singleton range
`[port, port]`. -/
def DeviceMap.device_for_port (m : DeviceMap) (port : Nat) : Option Nat :=
  (mapGet m.portio_map ⟨port, port⟩).map (fun kv => kv.2)

/-- Embeds `DeviceInteraction for u16::find_device_mut` as used by
`DeviceMap::device_for_mut`: the identical lookup through `get_mut`. -/
def DeviceMap.device_for_mut_port (m : DeviceMap) (port : Nat) : Option Nat :=
  (mapGet m.portio_map ⟨port, port⟩).map (fun kv => kv.2)

/-- Embeds `DeviceInteraction for GuestPhysAddr::find_device` as used by
`DeviceMap::device_for`: probe `memio_map` with the singleton range
`[addr, addr]`. -/
def DeviceMap.device_for_mem (m : DeviceMap) (addr : Nat) : Option Nat :=
  (mapGet m.memio_map ⟨addr, addr⟩).map (fun kv => kv.2)

/-- Embeds `DeviceInteraction for GuestPhysAddr::find_device_mut` as used by
`DeviceMap::device_for_mut`. -/
def DeviceMap.device_for_mut_mem (m : DeviceMap) (addr : Nat) : Option Nat :=
  (mapGet m.memio_map ⟨addr, addr⟩).map (fun kv => kv.2)

/-- Whether two declared regions collide: true exactly when they lie in the
same address space and their ranges overlap (compare `Equal`). -/
def regionsConflict : DeviceRegion → DeviceRegion → Bool
  | .PortIo a, .PortIo b => rangeCmp a b = .eq
  | .MemIo a, .MemIo b => rangeCmp a b = .eq
  | _, _ => false

/-!
## The PCI root complex (`device/pci.rs`)
-/

/-- Embeds `PciNonBridgeHeader` (`#[repr(C, packed)]`, all fields defaulting to
zero).  `class` is renamed `class_` because `class` is a Lean keyword;
`_reserved` is the packed `[u8; 7]` field. -/
structure PciNonBridgeHeader where
  vendor_id : Nat
  device_id : Nat
  command : Nat
  status : Nat
  revision_id : Nat
  prog_if : Nat
  subclass : Nat
  class_ : Nat
  cache_line_size : Nat
  latency_timer : Nat
  header_type : Nat
  bist : Nat
  bar_0 : Nat
  bar_1 : Nat
  bar_2 : Nat
  bar_3 : Nat
  bar_4 : Nat
  bar_5 : Nat
  cardbus_cis : Nat
  subsystem_vendor_id : Nat
  subsystem_id : Nat
  expansion_rom_addr : Nat
  capabilities : Nat
  _reserved : List Nat
  interrupt_line : Nat
  interrupt_pin : Nat
  min_grant : Nat
  max_latency : Nat
deriving DecidableEq, Repr

/-- Embeds `PciNonBridgeHeader::default()`: every field zero. -/
def PciNonBridgeHeader.default : PciNonBridgeHeader :=
  ⟨0, 0, 0, 0, 0, 0, 0, 0, 0, 0, 0, 0, 0, 0, 0, 0, 0, 0, 0, 0, 0, 0, 0,
   List.replicate 7 0, 0, 0, 0, 0⟩

/-- The sixteen 32-bit registers the packed header occupies: the dword at
byte offset `4k` read as a native little-endian word, which is what the
`transmute` in `PciConfigSpace::as_registers` produces on x86. -/
def PciNonBridgeHeader.as_registers (h : PciNonBridgeHeader) : List Nat :=
  [ h.vendor_id + h.device_id * 2 ^ 16,
    h.command + h.status * 2 ^ 16,
    h.revision_id + h.prog_if * 2 ^ 8 + h.subclass * 2 ^ 16 + h.class_ * 2 ^ 24,
    h.cache_line_size + h.latency_timer * 2 ^ 8 + h.header_type * 2 ^ 16 + h.bist * 2 ^ 24,
    h.bar_0, h.bar_1, h.bar_2, h.bar_3, h.bar_4, h.bar_5,
    h.cardbus_cis,
    h.subsystem_vendor_id + h.subsystem_id * 2 ^ 16,
    h.expansion_rom_addr,
    h.capabilities + h._reserved.getD 0 0 * 2 ^ 8 + h._reserved.getD 1 0 * 2 ^ 16
      + h._reserved.getD 2 0 * 2 ^ 24,
    h._reserved.getD 3 0 + h._reserved.getD 4 0 * 2 ^ 8 + h._reserved.getD 5 0 * 2 ^ 16
      + h._reserved.getD 6 0 * 2 ^ 24,
    h.interrupt_line + h.interrupt_pin * 2 ^ 8 + h.min_grant * 2 ^ 16
      + h.max_latency * 2 ^ 24 ]

/-- Embeds `PciNonBridgeSpace`: the packed header followed by `_data: [u32; 48]`. -/
structure PciNonBridgeSpace where
  header : PciNonBridgeHeader
  _data : List Nat
deriving DecidableEq, Repr

/-- Embeds `PciNonBridgeSpace::new`: the given header over 48 zeroed data words. -/
def PciNonBridgeSpace.new (header : PciNonBridgeHeader) : PciNonBridgeSpace :=
  ⟨header, List.replicate 48 0⟩

/-- Embeds `PciConfigSpace`: the three header types; `Type1`/`Type2` are opaque
64-word arrays. -/
inductive PciConfigSpace where
  | Type0 (space : PciNonBridgeSpace)
  | Type1 (_data : List Nat)
  | Type2 (_data : List Nat)
deriving DecidableEq, Repr

/-- Embeds `PciConfigSpace::as_registers`: the 64-entry `u32` view the source
obtains by transmuting the packed 256-byte space. -/
def PciConfigSpace.as_registers : PciConfigSpace → List Nat
  | .Type0 space => space.header.as_registers ++ space._data
  | .Type1 d => d
  | .Type2 d => d

/-- Embeds `PciConfigSpace::read_register`: index the register array.  Every call
site masks the index below 64, so the out-of-range default is never hit. -/
def PciConfigSpace.read_register (cs : PciConfigSpace) (register : Nat) : Nat :=
  cs.as_registers.getD register 0

/-- Embeds `PciBdf`: bus (`u8`) / device (`u5`) / function (`u3`). -/
structure PciBdf where
  bus : Nat
  device : Nat
  function : Nat
deriving DecidableEq, Repr

/-- Embeds `From<u16> for PciBdf`. -/
def PciBdf.fromU16 (bytes : Nat) : PciBdf :=
  ⟨(bytes &&& 0xff00) >>> 8, (bytes &&& 0b11111000) >>> 3, bytes &&& 0b111⟩

/-- Embeds `Into<u16> for PciBdf`. -/
def PciBdf.toU16 (b : PciBdf) : Nat :=
  b.bus <<< 8 ||| (b.device <<< 3) ||| b.function

/-- Embeds `PciDevice`. -/
structure PciDevice where
  config_space : PciConfigSpace
  bdf : PciBdf
deriving DecidableEq, Repr

/-- Embeds `PciRootComplex`: the latched CONFIG_ADDRESS value and the
`BTreeMap<u16, PciDevice>` table, embedded as an association list with
exact `u16` keys. -/
structure PciRootComplex where
  current_address : Nat
  devices : List (Nat × PciDevice)
deriving DecidableEq, Repr

/-- Embeds `PciRootComplex::PCI_CONFIG_ADDRESS`. -/
def PCI_CONFIG_ADDRESS : Nat := 0xcf8

/-- Embeds `PciRootComplex::PCI_CONFIG_DATA`. -/
def PCI_CONFIG_DATA : Nat := 0xcfc

/-- Embeds `PciRootComplex::PCI_CONFIG_DATA_MAX`. -/
def PCI_CONFIG_DATA_MAX : Nat := PCI_CONFIG_DATA + 3

/-- The host-bridge fixture built in `PciRootComplex::new`:
BDF 0, Intel (0x8086) P35 MCH (0x29c0). -/
def host_bridge : PciDevice :=
  { bdf := PciBdf.fromU16 0x0000,
    config_space := .Type0 (PciNonBridgeSpace.new
      { PciNonBridgeHeader.default with vendor_id := 0x8086, device_id := 0x29c0 }) }

/-- The ICH9 fixture built in `PciRootComplex::new`:
BDF 0b1000, Intel (0x8086) ICH9 (0x2918). -/
def ich9 : PciDevice :=
  { bdf := PciBdf.fromU16 0b1000,
    config_space := .Type0 (PciNonBridgeSpace.new
      { PciNonBridgeHeader.default with vendor_id := 0x8086, device_id := 0x2918 }) }

/-- Embeds `PciRootComplex::new`: `current_address = 0` and the two seeded
devices keyed by their 16-bit BDF encodings. -/
def PciRootComplex.new : PciRootComplex :=
  { current_address := 0,
    devices := [(host_bridge.bdf.toU16, host_bridge), (ich9.bdf.toU16, ich9)] }

/-- Embeds `EmulatedDevice::services for PciRootComplex`. -/
def PciRootComplex.services : List DeviceRegion :=
  [ .PortIo ⟨PCI_CONFIG_ADDRESS, PCI_CONFIG_ADDRESS⟩,
    .PortIo ⟨PCI_CONFIG_DATA, PCI_CONFIG_DATA_MAX⟩ ]

/-- Embeds `PciRootComplex::on_port_read`.  The receiver is never mutated, so
only the reply buffer and the `Result` are returned.  In the data-window
arm the source computes `(self.current_address & 0xff >> 2) as u8`; Rust
gives `>>` higher precedence than `&`, so this is
`current_address & (0xff >> 2)`, embedded verbatim below. -/
def PciRootComplex.on_port_read (s : PciRootComplex) (port : Nat)
    (val : PortReadRequest) : PortReadRequest × Except Error Unit :=
  if port = PCI_CONFIG_ADDRESS then
    let addr := 0x80000000 ||| s.current_address
    (val.copy_from_u32 addr, .ok ())
  else if PCI_CONFIG_DATA ≤ port ∧ port ≤ PCI_CONFIG_DATA_MAX then
    let bdf := (s.current_address &&& 0xffff00) >>> 8
    let register := s.current_address &&& (0xff >>> 2)
    let offset := port - PCI_CONFIG_DATA
    match s.devices.find? (fun p => p.1 = bdf) with
    | some dev =>
        let res := dev.2.config_space.read_register register >>> (offset * 8)
        (val.copy_from_u32 res, .ok ())
    | none =>
        let res := 0xffffffff
        (val.copy_from_u32 res, .ok ())
  else
    (val, .error .InvalidValue)

/-- Embeds `PciRootComplex::on_port_write`: a 4-byte write to CONFIG_ADDRESS
stores the value masked with `0x7fff_ffff` (narrower widths fail inside
`try_into` and leave the state untouched); writes to any other claimed
port are logged and discarded. -/
def PciRootComplex.on_port_write (s : PciRootComplex) (port : Nat)
    (val : PortWriteRequest) : PciRootComplex × Except Error Unit :=
  if port = PCI_CONFIG_ADDRESS then
    match val.tryIntoU32 with
    | .error e => (s, .error e)
    | .ok addr => ({ s with current_address := addr &&& 0x7fffffff }, .ok ())
  else
    (s, .ok ())

/-!
## Supporting lemmas
-/

/-- Width-aware reply helper: after `copy_from_u32`, the big-endian value of
the buffer is the written value reduced modulo the buffer's width. -/
theorem beInterp_copy_from_u32 (v : Nat) (r : PortReadRequest) :
    beInterp ((r.copy_from_u32 v).as_slice) = v % 2 ^ (8 * r.len) := by
  cases r with
  | OneByte b0 =>
      show 0 * 256 + v % 256 = v % 2 ^ (8 * 1)
      omega
  | TwoBytes b0 b1 =>
      show (0 * 256 + v / 2 ^ 8 % 256) * 256 + v % 256 = v % 2 ^ (8 * 2)
      omega
  | FourBytes b0 b1 b2 b3 =>
      show (((0 * 256 + v / 2 ^ 24 % 256) * 256 + v / 2 ^ 16 % 256) * 256
          + v / 2 ^ 8 % 256) * 256 + v % 256 = v % 2 ^ (8 * 4)
      omega

/-- The overlap order compares `Equal` exactly on overlapping ranges. -/
theorem rangeCmp_eq_iff (a b : IncRange) :
    rangeCmp a b = .eq ↔ b.lo ≤ a.hi ∧ a.lo ≤ b.hi := by
  unfold rangeCmp
  split <;> rename_i h1
  · simp
    omega
  · split <;> rename_i h2
    · simp
      omega
    · simp
      omega

/-- Overlap, hence `Equal`-comparison, is symmetric. -/
theorem rangeCmp_eq_comm (a b : IncRange) :
    rangeCmp a b = .eq ↔ rangeCmp b a = .eq := by
  rw [rangeCmp_eq_iff, rangeCmp_eq_iff]
  omega

/-- A singleton probe compares `Equal` to a stored key exactly when the key
contains the point. -/
theorem rangeCmp_singleton (x : Nat) (k : IncRange) :
    rangeCmp ⟨x, x⟩ k = .eq ↔ k.lo ≤ x ∧ x ≤ k.hi := by
  rw [rangeCmp_eq_iff]

/-- The lookup `mapGet` misses exactly when no stored key overlaps the probe. -/
theorem mapGet_eq_none_iff (m : List (IncRange × Nat)) (key : IncRange) :
    mapGet m key = none ↔ ∀ kv ∈ m, rangeCmp key kv.1 ≠ .eq := by
  simp [mapGet, List.find?_eq_none]

/-- A `mapGet` hit is a stored entry whose key overlaps the probe. -/
theorem mapGet_eq_some (m : List (IncRange × Nat)) (key : IncRange)
    (kv : IncRange × Nat) (h : mapGet m key = some kv) :
    kv ∈ m ∧ rangeCmp key kv.1 = .eq := by
  refine ⟨List.mem_of_find?_eq_some h, ?_⟩
  have := List.find?_some h
  simpa using this

/-- A region is insertable into `m`: no stored key of the matching map
overlaps its range. -/
def okReg (m : DeviceMap) : DeviceRegion → Prop
  | .PortIo a => ∀ kv ∈ m.portio_map, rangeCmp a kv.1 ≠ .eq
  | .MemIo a => ∀ kv ∈ m.memio_map, rangeCmp a kv.1 ≠ .eq

/-- Insertability after appending a port key: insertable before, and not
conflicting with the new key. -/
theorem okReg_append_port (m : DeviceMap) (a : IncRange) (devId : Nat)
    (x : DeviceRegion) :
    okReg { m with portio_map := m.portio_map ++ [(a, devId)] } x ↔
      okReg m x ∧ regionsConflict (.PortIo a) x = false := by
  cases x with
  | PortIo b =>
      simp only [okReg, regionsConflict, List.forall_mem_append,
        List.forall_mem_singleton, decide_eq_false_iff_not, ne_eq,
        rangeCmp_eq_comm b a]
  | MemIo b =>
      simp [okReg, regionsConflict]

/-- Insertability after appending a memory key. -/
theorem okReg_append_mem (m : DeviceMap) (a : IncRange) (devId : Nat)
    (x : DeviceRegion) :
    okReg { m with memio_map := m.memio_map ++ [(a, devId)] } x ↔
      okReg m x ∧ regionsConflict (.MemIo a) x = false := by
  cases x with
  | PortIo b =>
      simp [okReg, regionsConflict]
  | MemIo b =>
      simp only [okReg, regionsConflict, List.forall_mem_append,
        List.forall_mem_singleton, decide_eq_false_iff_not, ne_eq,
        rangeCmp_eq_comm b a]

/-- The registration loop succeeds exactly when every offered region avoids
the starting map and the offered regions are pairwise conflict-free. -/
theorem registerRegions_ok_iff (rs : List DeviceRegion) (m : DeviceMap)
    (devId : Nat) :
    (registerRegions m rs devId).2 = .ok () ↔
      (∀ r ∈ rs, okReg m r)
        ∧ rs.Pairwise (fun a b => regionsConflict a b = false) := by
  induction rs generalizing m with
  | nil => simp [registerRegions]
  | cons r rest ih =>
      cases r with
      | PortIo a =>
          cases hM : mapGet m.portio_map a with
          | some c =>
              have hc := mapGet_eq_some m.portio_map a c hM
              simp only [registerRegions, hM, List.pairwise_cons,
                List.forall_mem_cons]
              constructor
              · intro h
                simp at h
              · rintro ⟨⟨hA, -⟩, -⟩
                exact absurd hc.2 (hA c hc.1)
          | none =>
              have hok : okReg m (.PortIo a) :=
                fun kv hkv => (mapGet_eq_none_iff m.portio_map a).mp hM kv hkv
              simp only [registerRegions, hM]
              rw [ih]
              simp only [List.forall_mem_cons, List.pairwise_cons]
              constructor
              · rintro ⟨hrest, hpw⟩
                exact ⟨⟨hok, fun x hx =>
                          ((okReg_append_port m a devId x).mp (hrest x hx)).1⟩,
                       fun x hx =>
                          ((okReg_append_port m a devId x).mp (hrest x hx)).2,
                       hpw⟩
              · rintro ⟨⟨-, hrest⟩, hconf, hpw⟩
                exact ⟨fun x hx => (okReg_append_port m a devId x).mpr
                          ⟨hrest x hx, hconf x hx⟩, hpw⟩
      | MemIo a =>
          cases hM : mapGet m.memio_map a with
          | some c =>
              have hc := mapGet_eq_some m.memio_map a c hM
              simp only [registerRegions, hM, List.pairwise_cons,
                List.forall_mem_cons]
              constructor
              · intro h
                simp at h
              · rintro ⟨⟨hA, -⟩, -⟩
                exact absurd hc.2 (hA c hc.1)
          | none =>
              have hok : okReg m (.MemIo a) :=
                fun kv hkv => (mapGet_eq_none_iff m.memio_map a).mp hM kv hkv
              simp only [registerRegions, hM]
              rw [ih]
              simp only [List.forall_mem_cons, List.pairwise_cons]
              constructor
              · rintro ⟨hrest, hpw⟩
                exact ⟨⟨hok, fun x hx =>
                          ((okReg_append_mem m a devId x).mp (hrest x hx)).1⟩,
                       fun x hx =>
                          ((okReg_append_mem m a devId x).mp (hrest x hx)).2,
                       hpw⟩
              · rintro ⟨⟨-, hrest⟩, hconf, hpw⟩
                exact ⟨fun x hx => (okReg_append_mem m a devId x).mpr
                          ⟨hrest x hx, hconf x hx⟩, hpw⟩

/-- A registration failure is an `InvalidDevice` error naming an offered
range (one of the device's regions) and a genuinely overlapping conflicting
range. -/
theorem registerRegions_error_names (rs : List DeviceRegion) (m : DeviceMap)
    (devId : Nat) (e : Error)
    (h : (registerRegions m rs devId).2 = .error e) :
    ∃ sp olo ohi clo chi, e = .InvalidDevice sp olo ohi clo chi
      ∧ rangeCmp ⟨olo, ohi⟩ ⟨clo, chi⟩ = .eq
      ∧ (if sp then DeviceRegion.PortIo ⟨olo, ohi⟩
         else DeviceRegion.MemIo ⟨olo, ohi⟩) ∈ rs := by
  induction rs generalizing m with
  | nil => simp [registerRegions] at h
  | cons r rest ih =>
      cases r with
      | PortIo a =>
          cases hM : mapGet m.portio_map a with
          | some c =>
              have hc := mapGet_eq_some m.portio_map a c hM
              simp only [registerRegions, hM] at h
              refine ⟨true, a.lo, a.hi, c.1.lo, c.1.hi, ?_, hc.2, by simp⟩
              simp at h
              exact h.symm
          | none =>
              simp only [registerRegions, hM] at h
              obtain ⟨sp, olo, ohi, clo, chi, he, hov, hmem⟩ := ih _ h
              exact ⟨sp, olo, ohi, clo, chi, he, hov,
                List.mem_cons_of_mem _ hmem⟩
      | MemIo a =>
          cases hM : mapGet m.memio_map a with
          | some c =>
              have hc := mapGet_eq_some m.memio_map a c hM
              simp only [registerRegions, hM] at h
              refine ⟨false, a.lo, a.hi, c.1.lo, c.1.hi, ?_, hc.2, by simp⟩
              simp at h
              exact h.symm
          | none =>
              simp only [registerRegions, hM] at h
              obtain ⟨sp, olo, ohi, clo, chi, he, hov, hmem⟩ := ih _ h
              exact ⟨sp, olo, ohi, clo, chi, he, hov,
                List.mem_cons_of_mem _ hmem⟩

/-- Point lookup over pairwise non-overlapping stored keys: the singleton
probe finds exactly the entry whose key contains the point. -/
theorem mapGet_singleton_of_mem (l : List (IncRange × Nat)) (x : Nat)
    (hp : l.Pairwise (fun a b => rangeCmp a.1 b.1 ≠ .eq))
    (k : IncRange) (d : Nat) (hm : (k, d) ∈ l)
    (h1 : k.lo ≤ x) (h2 : x ≤ k.hi) :
    mapGet l ⟨x, x⟩ = some (k, d) := by
  induction l with
  | nil => simp at hm
  | cons hd t ih =>
      by_cases hhd : rangeCmp ⟨x, x⟩ hd.1 = .eq
      · have hcont := (rangeCmp_singleton x hd.1).mp hhd
        have hkhd : (k, d) = hd := by
          rcases List.mem_cons.mp hm with h | h
          · exact h
          · exfalso
            have hne := (List.pairwise_cons.mp hp).1 (k, d) h
            exact hne ((rangeCmp_eq_iff hd.1 k).mpr (by omega))
        rw [mapGet, List.find?_cons_of_pos _ (by simpa using hhd), hkhd]
      · have hm' : (k, d) ∈ t := by
          rcases List.mem_cons.mp hm with h | h
          · exfalso
            exact hhd ((rangeCmp_singleton x hd.1).mpr (by rw [← h]; exact ⟨h1, h2⟩))
          · exact h
        rw [mapGet, List.find?_cons_of_neg _ (by simpa using hhd)]
        exact ih (List.pairwise_cons.mp hp).2 hm'

/-- Point lookup misses when no stored key contains the point. -/
theorem mapGet_singleton_of_not_mem (l : List (IncRange × Nat)) (x : Nat)
    (h : ∀ kv ∈ l, ¬(kv.1.lo ≤ x ∧ x ≤ kv.1.hi)) :
    mapGet l ⟨x, x⟩ = none := by
  rw [mapGet_eq_none_iff]
  intro kv hkv heq
  exact h kv hkv ((rangeCmp_singleton x kv.1).mp heq)

/-- The assembly `u32.fromBeBytes` inverts `u32.toBeBytes` modulo `2 ^ 32`. -/
theorem fromBe_toBe (v : Nat) :
    u32.fromBeBytes (v / 2 ^ 24 % 256) (v / 2 ^ 16 % 256) (v / 2 ^ 8 % 256)
      (v % 256) = v % 2 ^ 32 := by
  show (v / 2 ^ 24 % 256) * 2 ^ 24 + (v / 2 ^ 16 % 256) * 2 ^ 16
      + (v / 2 ^ 8 % 256) * 2 ^ 8 + v % 256 = v % 2 ^ 32
  omega

/-!
## The claims
-/

/-- The register-index formula as the specification states it:
`((current_address & 0xFF) >> 2) & 0x3F`, the dword index carried in
CONFIG_ADDRESS bits 7:2.  Kept separate for comparison against the code,
whose `current_address & 0xff >> 2` parses as `current_address & 0x3f`
because Rust gives `>>` a higher precedence than `&`. -/
def specRegisterIndex (addr : Nat) : Nat :=
  ((addr &&& 0xff) >>> 2) &&& 0x3f

/-- C1: the claim fails on the code.  Latching CONFIG_ADDRESS `0x40` — per
the claim's formula dword register 0x10, whose value in the host bridge is
0 — and reading 4 bytes from the data window returns the register-0 value
`0x29c0_8086` instead, because the code indexes with
`current_address & (0xff >> 2)` = `current_address & 0x3f` = 0. -/
theorem pci_register_index_bug :
    ((PciRootComplex.new.on_port_write PCI_CONFIG_ADDRESS
        (.FourBytes 0x00 0x00 0x00 0x40)).1.current_address = 0x40)
    ∧ ((PciRootComplex.new.on_port_write PCI_CONFIG_ADDRESS
        (.FourBytes 0x00 0x00 0x00 0x40)).1.on_port_read PCI_CONFIG_DATA
        (.FourBytes 0 0 0 0) = (.FourBytes 0x29 0xc0 0x80 0x86, .ok ()))
    ∧ specRegisterIndex 0x40 = 0x10
    ∧ host_bridge.config_space.read_register (specRegisterIndex 0x40)
        >>> ((PCI_CONFIG_DATA - PCI_CONFIG_DATA) * 8) = 0
    ∧ PortReadRequest.copy_from_u32 (.FourBytes 0 0 0 0) 0 = .FourBytes 0 0 0 0
    ∧ PortReadRequest.FourBytes 0x29 0xc0 0x80 0x86 ≠ .FourBytes 0 0 0 0 :=
  ⟨rfl, rfl, rfl, rfl, rfl, by decide⟩

/-- C2: registering a sequence of regions into an empty `DeviceMap`
succeeds iff no two regions of the same address space overlap; a failure is
an `InvalidDevice` error naming the offered range and an overlapping
conflicting range; and adjacent-but-disjoint ranges compare strictly below,
hence are accepted. -/
theorem register_device_empty_ok_iff (rs : List DeviceRegion) (devId : Nat) :
    ((DeviceMap.empty.register_device ⟨devId, rs⟩).2 = .ok () ↔
        rs.Pairwise (fun a b => regionsConflict a b = false))
    ∧ (∀ e, (DeviceMap.empty.register_device ⟨devId, rs⟩).2 = .error e →
        ∃ sp olo ohi clo chi, e = .InvalidDevice sp olo ohi clo chi
          ∧ rangeCmp ⟨olo, ohi⟩ ⟨clo, chi⟩ = .eq)
    ∧ (∀ lo hi lo2 hi2 : Nat, hi + 1 = lo2 →
        rangeCmp ⟨lo, hi⟩ ⟨lo2, hi2⟩ = .lt) := by
  have hdev : DeviceMap.empty.register_device ⟨devId, rs⟩
      = registerRegions DeviceMap.empty rs devId := rfl
  refine ⟨?_, ?_, ?_⟩
  · rw [hdev, registerRegions_ok_iff]
    have htriv : ∀ r ∈ rs, okReg DeviceMap.empty r := by
      intro r hr
      cases r <;> intro kv hkv <;> simp [DeviceMap.empty] at hkv
    exact ⟨fun h => h.2, fun h => ⟨htriv, h⟩⟩
  · intro e he
    rw [hdev] at he
    obtain ⟨sp, olo, ohi, clo, chi, h1, h2, -⟩ :=
      registerRegions_error_names rs DeviceMap.empty devId e he
    exact ⟨sp, olo, ohi, clo, chi, h1, h2⟩
  · intro lo hi lo2 hi2 hadj
    unfold rangeCmp
    rw [if_pos]
    show hi < lo2
    omega

/-- Witness for C2 at concrete inputs: two identical port ranges are
rejected with an overlap-naming error, and adjacent disjoint ranges
`[0,3]`, `[4,8]` are accepted. -/
theorem register_device_empty_ok_iff_witness :
    (∃ sp olo ohi clo chi,
        (Error.InvalidDevice true 0 0 0 0) = .InvalidDevice sp olo ohi clo chi
          ∧ rangeCmp ⟨olo, ohi⟩ ⟨clo, chi⟩ = .eq)
    ∧ rangeCmp ⟨0, 3⟩ ⟨4, 8⟩ = .lt
    ∧ (DeviceMap.empty.register_device
        ⟨0, [.PortIo ⟨0, 3⟩, .PortIo ⟨4, 8⟩]⟩).2 = .ok () :=
  ⟨(register_device_empty_ok_iff [.PortIo ⟨0, 0⟩, .PortIo ⟨0, 0⟩] 0).2.1 _ rfl,
   (register_device_empty_ok_iff [] 0).2.2 0 3 4 8 rfl,
   (register_device_empty_ok_iff [.PortIo ⟨0, 3⟩, .PortIo ⟨4, 8⟩] 0).1.mpr
     (by decide)⟩

/-- C3: after `copy_from_u32 v`, the big-endian interpretation of the reply
buffer is `v` masked to its width's low bits. -/
theorem copy_from_u32_be_mask (v : Nat) (r : PortReadRequest) :
    beInterp ((r.copy_from_u32 v).as_slice) = v &&& (2 ^ (8 * r.len) - 1) := by
  rw [Nat.and_pow_two_sub_one_eq_mod]
  exact beInterp_copy_from_u32 v r

/-- C4: end-to-end host-bridge read.  After writing bytes `00 00 00 00` to
0xCF8, a 4-byte read of 0xCFC yields `29 c0 80 86`; 2-byte reads of 0xCFC
and 0xCFE yield `80 86` and `29 c0`; 1-byte reads of 0xCFC..0xCFF yield
`86`, `80`, `c0`, `29`. -/
theorem pci_host_bridge_reads :
    ((PciRootComplex.new.on_port_write PCI_CONFIG_ADDRESS
        (.FourBytes 0x00 0x00 0x00 0x00)).1.current_address = 0)
    ∧ ((PciRootComplex.new.on_port_write PCI_CONFIG_ADDRESS
        (.FourBytes 0x00 0x00 0x00 0x00)).2 = .ok ())
    ∧ ((PciRootComplex.new.on_port_write PCI_CONFIG_ADDRESS
        (.FourBytes 0x00 0x00 0x00 0x00)).1.on_port_read 0xcfc
        (.FourBytes 0 0 0 0) = (.FourBytes 0x29 0xc0 0x80 0x86, .ok ()))
    ∧ ((PciRootComplex.new.on_port_write PCI_CONFIG_ADDRESS
        (.FourBytes 0x00 0x00 0x00 0x00)).1.on_port_read 0xcfc
        (.TwoBytes 0 0) = (.TwoBytes 0x80 0x86, .ok ()))
    ∧ ((PciRootComplex.new.on_port_write PCI_CONFIG_ADDRESS
        (.FourBytes 0x00 0x00 0x00 0x00)).1.on_port_read 0xcfe
        (.TwoBytes 0 0) = (.TwoBytes 0x29 0xc0, .ok ()))
    ∧ ((PciRootComplex.new.on_port_write PCI_CONFIG_ADDRESS
        (.FourBytes 0x00 0x00 0x00 0x00)).1.on_port_read 0xcfc
        (.OneByte 0) = (.OneByte 0x86, .ok ()))
    ∧ ((PciRootComplex.new.on_port_write PCI_CONFIG_ADDRESS
        (.FourBytes 0x00 0x00 0x00 0x00)).1.on_port_read 0xcfd
        (.OneByte 0) = (.OneByte 0x80, .ok ()))
    ∧ ((PciRootComplex.new.on_port_write PCI_CONFIG_ADDRESS
        (.FourBytes 0x00 0x00 0x00 0x00)).1.on_port_read 0xcfe
        (.OneByte 0) = (.OneByte 0xc0, .ok ()))
    ∧ ((PciRootComplex.new.on_port_write PCI_CONFIG_ADDRESS
        (.FourBytes 0x00 0x00 0x00 0x00)).1.on_port_read 0xcff
        (.OneByte 0) = (.OneByte 0x29, .ok ())) :=
  ⟨rfl, rfl, rfl, rfl, rfl, rfl, rfl, rfl, rfl⟩

/-- C5: a 4-byte write to 0xCF8 stores the big-endian value masked with
`0x7fff_ffff`; 1- and 2-byte writes fail with `InvalidValue`; every read of
0xCF8 emits `0x8000_0000 | current_address` via `copy_from_u32`; and a
full-width read after a successful write of `v` returns
`(v & 0x7fff_ffff) | 0x8000_0000`, so bit 31 is always observed set. -/
theorem cf8_address_register (s : PciRootComplex) (v : Nat) :
    (∀ b0 b1 b2 b3, s.on_port_write PCI_CONFIG_ADDRESS (.FourBytes b0 b1 b2 b3)
        = ({ s with current_address :=
              u32.fromBeBytes b0 b1 b2 b3 &&& 0x7fffffff }, .ok ()))
    ∧ (∀ b0, s.on_port_write PCI_CONFIG_ADDRESS (.OneByte b0)
        = (s, .error .InvalidValue))
    ∧ (∀ b0 b1, s.on_port_write PCI_CONFIG_ADDRESS (.TwoBytes b0 b1)
        = (s, .error .InvalidValue))
    ∧ (∀ r, s.on_port_read PCI_CONFIG_ADDRESS r
        = (r.copy_from_u32 (0x80000000 ||| s.current_address), .ok ()))
    ∧ (v < 2 ^ 32 →
        beInterp (((s.on_port_write PCI_CONFIG_ADDRESS
              (.FourBytes (v / 2 ^ 24 % 256) (v / 2 ^ 16 % 256)
                (v / 2 ^ 8 % 256) (v % 256))).1.on_port_read
              PCI_CONFIG_ADDRESS (.FourBytes 0 0 0 0)).1.as_slice)
          = (v &&& 0x7fffffff) ||| 0x80000000
        ∧ Nat.testBit ((v &&& 0x7fffffff) ||| 0x80000000) 31 = true) := by
  refine ⟨fun b0 b1 b2 b3 => rfl, fun b0 => rfl, fun b0 b1 => rfl,
    fun r => rfl, ?_⟩
  intro hv
  have hca : ((s.on_port_write PCI_CONFIG_ADDRESS
      (.FourBytes (v / 2 ^ 24 % 256) (v / 2 ^ 16 % 256)
        (v / 2 ^ 8 % 256) (v % 256))).1).current_address = v &&& 0x7fffffff := by
    show u32.fromBeBytes (v / 2 ^ 24 % 256) (v / 2 ^ 16 % 256)
        (v / 2 ^ 8 % 256) (v % 256) &&& 0x7fffffff = v &&& 0x7fffffff
    rw [fromBe_toBe, Nat.mod_eq_of_lt hv]
  constructor
  · have h1 : ((s.on_port_write PCI_CONFIG_ADDRESS
        (.FourBytes (v / 2 ^ 24 % 256) (v / 2 ^ 16 % 256)
          (v / 2 ^ 8 % 256) (v % 256))).1.on_port_read
        PCI_CONFIG_ADDRESS (.FourBytes 0 0 0 0)).1
        = (PortReadRequest.FourBytes 0 0 0 0).copy_from_u32
            (0x80000000 ||| ((s.on_port_write PCI_CONFIG_ADDRESS
              (.FourBytes (v / 2 ^ 24 % 256) (v / 2 ^ 16 % 256)
                (v / 2 ^ 8 % 256) (v % 256))).1).current_address) := rfl
    rw [h1, hca, beInterp_copy_from_u32]
    have hlen : 8 * (PortReadRequest.FourBytes 0 0 0 0).len = 32 := rfl
    rw [hlen, Nat.mod_eq_of_lt, Nat.lor_comm]
    exact Nat.or_lt_two_pow (by norm_num)
      (lt_of_le_of_lt Nat.and_le_right (by norm_num))
  · rw [Nat.testBit_lor]
    have hbit : Nat.testBit 0x80000000 31 = true := by decide
    rw [hbit, Bool.or_true]

/-- Witness for C5 at `v = 0x12345678` on a fresh root complex. -/
theorem cf8_address_register_witness :
    (0x12345678 : Nat) < 2 ^ 32
    ∧ (beInterp (((PciRootComplex.new.on_port_write PCI_CONFIG_ADDRESS
          (.FourBytes (0x12345678 / 2 ^ 24 % 256) (0x12345678 / 2 ^ 16 % 256)
            (0x12345678 / 2 ^ 8 % 256) (0x12345678 % 256))).1.on_port_read
          PCI_CONFIG_ADDRESS (.FourBytes 0 0 0 0)).1.as_slice)
        = (0x12345678 &&& 0x7fffffff) ||| 0x80000000
      ∧ Nat.testBit ((0x12345678 &&& 0x7fffffff) ||| 0x80000000) 31 = true) :=
  ⟨by norm_num,
   (cf8_address_register PciRootComplex.new 0x12345678).2.2.2.2 (by norm_num)⟩

/-- C6: over pairwise non-overlapping stored keys, `device_for` and
`device_for_mut` return the device registered under the unique stored range
containing the probed port or address, and `none` when no stored range
contains it. -/
theorem device_for_lookup (m : DeviceMap)
    (hp : m.portio_map.Pairwise (fun a b => rangeCmp a.1 b.1 ≠ .eq))
    (hq : m.memio_map.Pairwise (fun a b => rangeCmp a.1 b.1 ≠ .eq)) :
    (∀ x k d, (k, d) ∈ m.portio_map → k.lo ≤ x → x ≤ k.hi →
        m.device_for_port x = some d ∧ m.device_for_mut_port x = some d)
    ∧ (∀ x, (∀ kv ∈ m.portio_map, ¬(kv.1.lo ≤ x ∧ x ≤ kv.1.hi)) →
        m.device_for_port x = none ∧ m.device_for_mut_port x = none)
    ∧ (∀ x k d, (k, d) ∈ m.memio_map → k.lo ≤ x → x ≤ k.hi →
        m.device_for_mem x = some d ∧ m.device_for_mut_mem x = some d)
    ∧ (∀ x, (∀ kv ∈ m.memio_map, ¬(kv.1.lo ≤ x ∧ x ≤ kv.1.hi)) →
        m.device_for_mem x = none ∧ m.device_for_mut_mem x = none) := by
  refine ⟨?_, ?_, ?_, ?_⟩
  · intro x k d hm h1 h2
    have hg := mapGet_singleton_of_mem m.portio_map x hp k d hm h1 h2
    exact ⟨by unfold DeviceMap.device_for_port; rw [hg]; rfl,
           by unfold DeviceMap.device_for_mut_port; rw [hg]; rfl⟩
  · intro x hx
    have hg := mapGet_singleton_of_not_mem m.portio_map x hx
    exact ⟨by unfold DeviceMap.device_for_port; rw [hg]; rfl,
           by unfold DeviceMap.device_for_mut_port; rw [hg]; rfl⟩
  · intro x k d hm h1 h2
    have hg := mapGet_singleton_of_mem m.memio_map x hq k d hm h1 h2
    exact ⟨by unfold DeviceMap.device_for_mem; rw [hg]; rfl,
           by unfold DeviceMap.device_for_mut_mem; rw [hg]; rfl⟩
  · intro x hx
    have hg := mapGet_singleton_of_not_mem m.memio_map x hx
    exact ⟨by unfold DeviceMap.device_for_mem; rw [hg]; rfl,
           by unfold DeviceMap.device_for_mut_mem; rw [hg]; rfl⟩

/-- Witness for C6 on a concrete two-key port map and one-key memory map. -/
theorem device_for_lookup_witness :
    ((DeviceMap.mk [(⟨0, 3⟩, 1), (⟨5, 9⟩, 2)] [(⟨100, 200⟩, 3)]).device_for_port 2
        = some 1)
    ∧ ((DeviceMap.mk [(⟨0, 3⟩, 1), (⟨5, 9⟩, 2)] [(⟨100, 200⟩, 3)]).device_for_port 4
        = none)
    ∧ ((DeviceMap.mk [(⟨0, 3⟩, 1), (⟨5, 9⟩, 2)] [(⟨100, 200⟩, 3)]).device_for_mem 150
        = some 3) :=
  have h := device_for_lookup
    (DeviceMap.mk [(⟨0, 3⟩, 1), (⟨5, 9⟩, 2)] [(⟨100, 200⟩, 3)])
    (by decide) (by decide)
  ⟨(h.1 2 ⟨0, 3⟩ 1 (by decide) (by decide) (by decide)).1,
   (h.2.1 4 (by decide)).1,
   (h.2.2.1 150 ⟨100, 200⟩ 3 (by decide) (by decide) (by decide)).1⟩

/-- C7: a `PortWriteRequest` built from a byte sequence of length 1, 2 or 4
has `as_u32` equal to the big-endian interpretation of the bytes,
zero-extended in the high-order bytes. -/
theorem port_write_as_u32_be (b : List Nat) (r : PortWriteRequest)
    (h : PortWriteRequest.try_from b = .ok r) :
    r.as_u32 = beInterp b := by
  rcases b with _ | ⟨b0, _ | ⟨b1, _ | ⟨b2, _ | ⟨b3, _ | ⟨b4, t⟩⟩⟩⟩⟩
  · simp [PortWriteRequest.try_from] at h
  · simp [PortWriteRequest.try_from] at h
    subst h
    show 0 * 2 ^ 24 + 0 * 2 ^ 16 + 0 * 2 ^ 8 + b0 = 0 * 256 + b0
    omega
  · simp [PortWriteRequest.try_from] at h
    subst h
    show 0 * 2 ^ 24 + 0 * 2 ^ 16 + b0 * 2 ^ 8 + b1 = (0 * 256 + b0) * 256 + b1
    omega
  · simp [PortWriteRequest.try_from] at h
  · simp [PortWriteRequest.try_from] at h
    subst h
    show b0 * 2 ^ 24 + b1 * 2 ^ 16 + b2 * 2 ^ 8 + b3
        = (((0 * 256 + b0) * 256 + b1) * 256 + b2) * 256 + b3
    omega
  · simp [PortWriteRequest.try_from] at h

/-- Witness for C7 on the two-byte sequence `[0x12, 0x34]`. -/
theorem port_write_as_u32_be_witness :
    PortWriteRequest.try_from [0x12, 0x34] = .ok (.TwoBytes 0x12 0x34)
    ∧ (PortWriteRequest.TwoBytes 0x12 0x34).as_u32 = beInterp [0x12, 0x34] :=
  ⟨rfl, port_write_as_u32_be [0x12, 0x34] (.TwoBytes 0x12 0x34) rfl⟩

/-- C8: no rollback on conflict.  A device declaring `[0,3]` then `[2,8]`
fails registration with `InvalidDevice`, yet `[0,3]` remains a key of the
map and a lookup of port 1 still returns the device. -/
theorem register_no_rollback :
    ((DeviceMap.empty.register_device ⟨7, [.PortIo ⟨0, 3⟩, .PortIo ⟨2, 8⟩]⟩).2
        = .error (.InvalidDevice true 2 8 0 3))
    ∧ ((⟨0, 3⟩, 7) ∈ (DeviceMap.empty.register_device
        ⟨7, [.PortIo ⟨0, 3⟩, .PortIo ⟨2, 8⟩]⟩).1.portio_map)
    ∧ ((DeviceMap.empty.register_device
        ⟨7, [.PortIo ⟨0, 3⟩, .PortIo ⟨2, 8⟩]⟩).1.device_for_port 1 = some 7) :=
  ⟨rfl, by decide, rfl⟩

/-- C9: writes to the data window 0xCFC..=0xCFF succeed and are discarded:
the root complex, its `current_address` and its device table are returned
unchanged. -/
theorem pci_data_window_write_discarded (s : PciRootComplex) (p : Nat)
    (val : PortWriteRequest) (h1 : PCI_CONFIG_DATA ≤ p)
    (h2 : p ≤ PCI_CONFIG_DATA_MAX) :
    s.on_port_write p val = (s, .ok ()) := by
  have h1a : 0xcfc ≤ p := h1
  have h2a : p ≤ 0xcff := h2
  have hne : ¬ p = PCI_CONFIG_ADDRESS := by
    show ¬ p = 0xcf8
    omega
  unfold PciRootComplex.on_port_write
  rw [if_neg hne]

/-- Witness for C9 at port 0xCFE with a one-byte write. -/
theorem pci_data_window_write_discarded_witness :
    PciRootComplex.new.on_port_write 0xcfe (.OneByte 0xab)
      = (PciRootComplex.new, .ok ()) :=
  pci_data_window_write_discarded PciRootComplex.new 0xcfe (.OneByte 0xab)
    (by decide) (by decide)

/-- C10: a 1- or 2-byte write to 0xCF8 fails with `InvalidValue` and leaves
`current_address` (indeed the whole state) unchanged. -/
theorem cf8_narrow_write_error_atomic (s : PciRootComplex) (b0 b1 : Nat) :
    s.on_port_write PCI_CONFIG_ADDRESS (.OneByte b0)
        = (s, .error .InvalidValue)
    ∧ s.on_port_write PCI_CONFIG_ADDRESS (.TwoBytes b0 b1)
        = (s, .error .InvalidValue) :=
  ⟨rfl, rfl⟩

end Mythril
